import Mathlib

/-!
Shallow embedding of the Tungsten exporter (`scene.py`) of the `carbide`
Blender add-on.  The Python class `TungstenScene` and the export operator
`W_OT_export.execute` are translated into pure Lean functions over an
explicit session state; external collaborators (the per-subsystem
converters, the mesh writer, the image encoder and the filesystem) are
parameters of an `Env` record, and observable side effects are collected
in an explicit effect trace.
-/

set_option autoImplicit false

namespace Carbide

/-- JSON-like values appearing in the scene document.  Numbers are split
into the Python `int` and `float` cases; floats are modelled as exact
rationals. -/
inductive Value where
  | vNull : Value
  | vBool : Bool → Value
  | vInt : Int → Value
  | vRat : ℚ → Value
  | vStr : String → Value
  | vArr : List Value → Value

open Value

/-- A Python `dict` with string keys, modelled as an insertion-ordered
association list (keys unique by construction of the operations). -/
abbrev Dict := List (String × Value)

/-- Lookup of a key in an association list: Python `d[k]` / `k in d`. -/
def getKey {α : Type} : List (String × α) → String → Option α
  | [], _ => none
  | p :: d, k => if p.1 = k then some p.2 else getKey d k

/-- Python `d[k] = v`: replace the value in place when the key is present,
otherwise append the new pair at the end (insertion order). -/
def setKey {α : Type} (d : List (String × α)) (k : String) (v : α) :
    List (String × α) :=
  if d.any (fun p => p.1 == k) then
    d.map (fun p => if p.1 = k then (k, v) else p)
  else
    d ++ [(k, v)]

/-- Python `d.update(u)`: repeated `setKey`, left to right over `u`. -/
def dictUpdate {α : Type} (d u : List (String × α)) : List (String × α) :=
  u.foldl (fun a p => setKey a p.1 p.2) d

theorem getKey_append {α : Type} (d e : List (String × α)) (k : String) :
    getKey (d ++ e) k = (getKey d k).orElse (fun _ => getKey e k) := by
  induction d with
  | nil => simp [getKey]
  | cons p d ih =>
      by_cases h : p.1 = k <;> simp [getKey, h, ih]

theorem getKey_eq_none_of_any_false {α : Type} (d : List (String × α))
    (k : String) (h : d.any (fun p => p.1 == k) = false) :
    getKey d k = none := by
  induction d with
  | nil => rfl
  | cons p d ih =>
      simp only [List.any_cons, Bool.or_eq_false_iff, beq_eq_false_iff_ne] at h
      simp [getKey, h.1, ih h.2]

theorem getKey_map_set_self {α : Type} (d : List (String × α)) (k : String)
    (v : α) (h : d.any (fun p => p.1 == k) = true) :
    getKey (d.map (fun p => if p.1 = k then (k, v) else p)) k = some v := by
  induction d with
  | nil => simp at h
  | cons p d ih =>
      by_cases hp : p.1 = k
      · simp [getKey, hp]
      · simp only [List.any_cons, Bool.or_eq_true_iff] at h
        rcases h with h | h
        · exact absurd (by simpa using h) hp
        · simp [getKey, hp, ih h]

theorem getKey_map_set_ne {α : Type} (d : List (String × α)) (k k' : String)
    (v : α) (h : k' ≠ k) :
    getKey (d.map (fun p => if p.1 = k then (k, v) else p)) k' = getKey d k' := by
  induction d with
  | nil => rfl
  | cons p d ih =>
      by_cases hp : p.1 = k
      · have h1 : ¬(k = k') := fun hc => h hc.symm
        have h2 : ¬(p.1 = k') := by rw [hp]; exact h1
        simp [getKey, hp, h1, h2, ih]
      · by_cases hp' : p.1 = k' <;> simp [getKey, hp, hp', ih, h]

theorem getKey_setKey_self {α : Type} (d : List (String × α)) (k : String)
    (v : α) : getKey (setKey d k v) k = some v := by
  unfold setKey
  by_cases h : d.any (fun p => p.1 == k) = true
  · simp [h, getKey_map_set_self d k v h]
  · have h' : d.any (fun p => p.1 == k) = false := Bool.eq_false_iff.mpr h
    simp [h', getKey_append, getKey_eq_none_of_any_false d k h', getKey]

theorem getKey_setKey_ne {α : Type} (d : List (String × α)) (k k' : String)
    (v : α) (h : k' ≠ k) : getKey (setKey d k v) k' = getKey d k' := by
  unfold setKey
  by_cases hc : d.any (fun p => p.1 == k) = true
  · simp [hc, getKey_map_set_ne d k k' v h]
  · have h' : d.any (fun p => p.1 == k) = false := Bool.eq_false_iff.mpr hc
    simp [h', getKey_append, getKey, h]
    cases getKey d k' <;> simp [getKey, Ne.symm h]

theorem getKey_setKey {α : Type} (d : List (String × α)) (k k' : String)
    (v : α) :
    getKey (setKey d k v) k' = if k' = k then some v else getKey d k' := by
  by_cases h : k' = k
  · simp [h, getKey_setKey_self]
  · simp [h, getKey_setKey_ne d k k' v h]

theorem getKey_dictUpdate_none {α : Type} (d u : List (String × α))
    (k : String) (h : getKey u k = none) :
    getKey (dictUpdate d u) k = getKey d k := by
  induction u generalizing d with
  | nil => rfl
  | cons p u ih =>
      simp only [getKey] at h
      by_cases hp : p.1 = k
      · simp [hp] at h
      · simp only [hp, if_false] at h
        show getKey (dictUpdate (setKey d p.1 p.2) u) k = getKey d k
        rw [ih _ h, getKey_setKey_ne d p.1 k p.2 (fun hc => hp hc.symm)]

theorem getKey_eq_none_of_not_mem {α : Type} (d : List (String × α))
    (k : String) (h : k ∉ d.map Prod.fst) : getKey d k = none := by
  induction d with
  | nil => rfl
  | cons p d ih =>
      rw [List.map_cons, List.mem_cons] at h
      push_neg at h
      have hp : ¬(p.1 = k) := fun hc => h.1 hc.symm
      simp [getKey, hp, ih h.2]

theorem getKey_dictUpdate {α : Type} (d u : List (String × α)) (k : String)
    (hu : (u.map Prod.fst).Nodup) :
    getKey (dictUpdate d u) k =
      ((getKey u k).orElse (fun _ => getKey d k)) := by
  induction u generalizing d with
  | nil => rfl
  | cons p u ih =>
      simp only [List.map_cons, List.nodup_cons] at hu
      show getKey (dictUpdate (setKey d p.1 p.2) u) k = _
      by_cases hp : p.1 = k
      · subst hp
        rw [getKey_dictUpdate_none _ _ _ (getKey_eq_none_of_not_mem u p.1 hu.1)]
        simp [getKey, getKey_setKey_self]
      · rw [ih _ hu.2, getKey_setKey_ne d p.1 k p.2 (fun hc => hp hc.symm)]
        simp [getKey, hp]

/-! ### 4×4 matrices (`mathutils.Matrix`) -/

/-- A 4×4 rational matrix, standing in for `mathutils.Matrix`. -/
abbrev Mat4 := Fin 4 → Fin 4 → ℚ

/-- Matrix product, `A * B` in `mathutils` (row-vector entries
`(A*B)[i][j] = Σ_k A[i][k]*B[k][j]`). -/
def Mat4.mul (A B : Mat4) : Mat4 := fun i j =>
  ((List.finRange 4).map (fun k => A i k * B k j)).sum

/-- A 3-vector embedded into homogeneous coordinates (fourth entry 0),
as `mathutils` does for a scale axis. -/
def axisVec (a : Fin 3 → ℚ) : Fin 4 → ℚ := fun i =>
  if h : (i : ℕ) < 3 then a ⟨i, h⟩ else 0

/-- The `mathutils` call `Matrix.Scale(f, 4, axis)`: scaling by factor `f`
along the (unit) axis, i.e. `I + (f-1)·axis·axisᵀ` in the upper 3×3 block.
The two uses in `scene.py` pass the unit axes `(0,0,1)` and `(1,0,0)`, for
which no normalization is needed. -/
def Mat4.Scale (f : ℚ) (axis : Fin 3 → ℚ) : Mat4 := fun i j =>
  (if i = j then 1 else 0) + (f - 1) * axisVec axis i * axisVec axis j

/-- Row-major flattening, matching `for v in m: out += list(v)` on a
`mathutils.Matrix` (iteration yields rows). -/
def Mat4.flatten (A : Mat4) : List ℚ :=
  (List.finRange 4).flatMap (fun i => (List.finRange 4).map (fun j => A i j))

/-! ### Host-side entities (the Blender data consumed by the exporter) -/

/-- A host material; the identity cache keys on its `name`. -/
structure Material where
  name : String

/-- A host material slot (`object.material_slots[i]`). -/
structure MaterialSlot where
  material : Option Material

/-- A host image datablock, with the fields `add_image` consults. -/
structure Image where
  name : String
  file_format : String
  filepath : String
  library : Option String

/-- A host object: name, type tag (`'MESH'`, `'LAMP'`, …), world
transform, and material slots. -/
structure HostObject where
  name : String
  type : String
  matrix_world : Mat4
  material_slots : List MaterialSlot

/-- The host camera entity (only its world matrix is consumed). -/
structure HostCamera where
  matrix_world : Mat4

/-- Host render settings consumed by `add_camera`. -/
structure RenderSettings where
  resolution_x : ℕ
  resolution_y : ℕ
  resolution_percentage : ℕ

/-- The host scene: render settings, optional world, camera, objects. -/
structure HostScene where
  render : RenderSettings
  world : Option Unit
  camera : HostCamera
  objects : List HostObject

/-! ### Effects, filesystem model and external collaborators -/

/-- What a path is on disk, for `os.path.exists/isfile/isdir`. -/
inductive PathKind where
  | absent : PathKind
  | file : PathKind
  | dir : PathKind
  | other : PathKind
deriving DecidableEq

/-- Observable side effects of the exporter, in occurrence order. -/
inductive Effect where
  | mkdtemp : String → Effect
  | mkdir : String → Effect
  | convRenderer : Effect
  | convIntegrator : Effect
  | convWorld : Effect
  | convCamera : Effect
  | convMaterial : String → Effect
  | writeMesh : String → Effect
  | writeImage : String → String → Effect
  | writeSceneFile : String → Effect
  | zipWrite : String → String → Bool → Effect
  | rmtree : String → Effect
deriving DecidableEq

/-- The external collaborators of `TungstenScene`: the per-subsystem
converters (`W_PT_renderer`, `W_PT_integrator`, `W_PT_world`,
`W_PT_camera`, `W_PT_material.to_scene_data`), the filesystem, `bpy.path`
and the image saver.  `matData m = none` models the material converter
raising; `saveOk im dest fmt = false` models `Image.save`/`save_render`
raising. -/
structure Env where
  rendererData : Dict
  integratorData : Dict
  worldData : Dict
  cameraData : Dict
  matData : Material → Option (Dict × Option Dict)
  pathKind : String → PathKind
  relpath : String → String → Option String
  abspath : String → Option String → String
  saveOk : Image → String → String → Bool
  tmpdir : String

/-- `os.path.exists` in terms of the path-kind oracle. -/
def Env.pathExists (env : Env) (p : String) : Bool :=
  decide (env.pathKind p ≠ PathKind.absent)

/-! ### The export session (`TungstenScene`) -/

/-- The in-memory manifest `self.scene`. -/
structure SceneDoc where
  media : List Value
  bsdfs : List Dict
  primitives : List Dict
  camera : Dict
  integrator : Dict
  renderer : Dict

/-- The session state: working directory, flags, document and the two
identity caches `self.mats` / `self.images`. -/
structure TungstenScene where
  dir : String
  clean_on_del : Bool
  self_contained : Bool
  scene : SceneDoc
  mats : List (String × Dict)
  images : List (String × String)
  scenefile : String
  default_mat : String

/-- `os.path.join` of the working directory with one component. -/
def joinPath (d f : String) : String := d ++ "/" ++ f

/-- The seeded `renderer` record of `__init__`. -/
def rendererDefaults : Dict :=
  [("output_file", vStr "scene.png"),
   ("overwrite_output_files", vBool true),
   ("enable_resume_render", vBool false),
   ("checkpoint_interval", vInt 0)]

/-- The default material record appended to `bsdfs` by `__init__`. -/
def defaultMatRecord : Dict :=
  [("name", vStr "__default_mat"),
   ("type", vStr "lambert"),
   ("albedo", vRat 0.8)]

/-- `TungstenScene.__init__(clean_on_del, self_contained, path)`.  A `none`
path allocates a fresh temporary directory (`env.tmpdir`); a supplied path
is created with `mkdir` only when it does not exist yet. -/
def TungstenScene.init (env : Env) (clean_on_del self_contained : Bool)
    (path : Option String) : TungstenScene × List Effect :=
  let dir := match path with
    | none => env.tmpdir
    | some p => p
  let effs := match path with
    | none => [Effect.mkdtemp env.tmpdir]
    | some p => if env.pathExists p then [] else [Effect.mkdir p]
  ({ dir := dir
     clean_on_del := clean_on_del
     self_contained := self_contained
     scene :=
       { media := []
         bsdfs := [defaultMatRecord]
         primitives := []
         camera := []
         integrator := []
         renderer := rendererDefaults }
     mats := []
     images := []
     scenefile := joinPath dir "scene.json"
     default_mat := "__default_mat" }, effs)

/-- `TungstenScene.__del__`: recursive removal of the working directory,
guarded by `clean_on_del`. -/
def TungstenScene.del (s : TungstenScene) : List Effect :=
  if s.clean_on_del then [Effect.rmtree s.dir] else []

/-- `TungstenScene.save`: dump the document to `self.scenefile`. -/
def TungstenScene.save (s : TungstenScene) : List Effect :=
  [Effect.writeSceneFile s.scenefile]

/-- `TungstenScene.to_zip`: walk the working directory into an archive at
`outpath`, deflated when `compress` is set. -/
def TungstenScene.to_zip (s : TungstenScene) (outpath : String)
    (compress : Bool) : List Effect :=
  [Effect.zipWrite s.dir outpath compress]

/-- `TungstenScene.add_world`: convert the world and append the primitive. -/
def TungstenScene.add_world (env : Env) (s : TungstenScene) :
    TungstenScene × List Effect :=
  let p := env.worldData
  ({ s with scene := { s.scene with primitives := s.scene.primitives ++ [p] } },
   [Effect.convWorld])

/-- Python `int()` on a rational: truncation toward zero. -/
def pyInt (q : ℚ) : ℤ := if 0 ≤ q then ⌊q⌋ else ⌈q⌉

/-- `TungstenScene.add_camera`: compose the camera's world matrix with the
two local-space flips, flatten it row-major, compute the scaled integer
resolution, and overwrite the `camera` record, merging converter output. -/
def TungstenScene.add_camera (env : Env) (scene : HostScene)
    (camera : HostCamera) (s : TungstenScene) : TungstenScene × List Effect :=
  let transform :=
    (camera.matrix_world.mul (Mat4.Scale (-1) ![0, 0, 1])).mul
      (Mat4.Scale (-1) ![1, 0, 0])
  let scale : ℚ := (scene.render.resolution_percentage : ℚ) / 100
  let width : ℤ := pyInt ((scene.render.resolution_x : ℚ) * scale)
  let height : ℤ := pyInt ((scene.render.resolution_y : ℚ) * scale)
  let cam : Dict :=
    [("transform", vArr ((transform.flatten).map vRat)),
     ("resolution", vArr [vInt width, vInt height])]
  let cam := dictUpdate cam env.cameraData
  ({ s with scene := { s.scene with camera := cam } }, [Effect.convCamera])

/-- `TungstenScene._save_image_as`: write `dest` (relative to the working
directory) in format `fmt`; the boolean is whether the save succeeded. -/
def TungstenScene.save_image_as (env : Env) (im : Image) (dest fmt : String) :
    Bool × List Effect :=
  (env.saveOk im dest fmt, [Effect.writeImage dest fmt])

/-- The `IMAGE_FORMATS` table of `add_image`: renderer-compatible Blender
formats and their native extensions. -/
def IMAGE_FORMATS : List (String × String) :=
  [("BMP", ".bmp"), ("PNG", ".png"), ("JPEG", ".jpg"),
   ("TARGA", ".tga"), ("TARGA_RAW", ".tga"), ("HDR", ".hdr")]

/-- `TungstenScene.add_image`: cached lookup, then the embed-vs-reference
decision policy.  `Except.error` models a raising save. -/
def TungstenScene.add_image (env : Env) (im : Image) (s : TungstenScene) :
    Except Unit String × TungstenScene × List Effect :=
  match getKey s.images im.name with
  | some p => (Except.ok p, s, [])
  | none =>
    match getKey IMAGE_FORMATS im.file_format with
    | some ext =>
      let path := env.abspath im.filepath im.library
      if path ≠ "" ∧ env.pathExists path = true ∧ s.self_contained = false then
        match env.relpath path s.dir with
        | some p =>
            (Except.ok p, { s with images := setKey s.images im.name p }, [])
        | none =>
            (Except.ok path,
             { s with images := setKey s.images im.name path }, [])
      else
        let dest := im.name ++ ext
        let (ok, effs) := TungstenScene.save_image_as env im dest im.file_format
        if ok then
          (Except.ok dest, { s with images := setKey s.images im.name dest },
           effs)
        else
          (Except.error (), s, effs)
    | none =>
      let dest := im.name ++ ".png"
      let (ok, effs) := TungstenScene.save_image_as env im dest "PNG"
      if ok then
        (Except.ok dest, { s with images := setKey s.images im.name dest },
         effs)
      else
        (Except.error (), s, effs)

/-- `TungstenScene.add_material`: cached lookup; otherwise run the material
converter, append the full record to `bsdfs` when present, and cache the
reference fragment.  `Except.error` models a raising converter. -/
def TungstenScene.add_material (env : Env) (m : Material) (s : TungstenScene) :
    Except Unit Dict × TungstenScene × List Effect :=
  match getKey s.mats m.name with
  | some obj => (Except.ok obj, s, [])
  | none =>
    match env.matData m with
    | none => (Except.error (), s, [Effect.convMaterial m.name])
    | some (obj, mat) =>
      let s1 := match mat with
        | some r =>
            { s with scene := { s.scene with bsdfs := s.scene.bsdfs ++ [r] } }
        | none => s
      (Except.ok obj, { s1 with mats := setKey s1.mats m.name obj },
       [Effect.convMaterial m.name])

/-- `TungstenScene.add_mesh` (with the default `name=None`): delegate to
the mesh writer for `<name>.wo3` and return that filename. -/
def TungstenScene.add_mesh (o : HostObject) : String × List Effect :=
  let name := o.name
  let outname := name ++ ".wo3"
  (outname, [Effect.writeMesh outname])

/-- `TungstenScene.add_object`: skip non-geometry types; otherwise export
the mesh, build the record, merge the material fragment from the cache (or
fall back to the default bsdf), and append to `primitives`. -/
def TungstenScene.add_object (env : Env) (o : HostObject)
    (s : TungstenScene) : Except Unit Unit × TungstenScene × List Effect :=
  if o.type ∈ (["MESH", "CURVE", "SURFACE", "META", "FONT"] : List String) then
    let (file, e1) := TungstenScene.add_mesh o
    let dat : Dict :=
      [("name", vStr o.name), ("type", vStr "mesh"),
       ("smooth", vBool true), ("file", vStr file)]
    let dat := setKey dat "transform" (vArr ((o.matrix_world.flatten).map vRat))
    match o.material_slots.head?.bind (fun slot => slot.material) with
    | some m =>
      match TungstenScene.add_material env m s with
      | (Except.ok obj, s2, e2) =>
        let dat2 := dictUpdate dat obj
        (Except.ok (),
         { s2 with scene :=
             { s2.scene with primitives := s2.scene.primitives ++ [dat2] } },
         e1 ++ e2)
      | (Except.error e, s2, e2) => (Except.error e, s2, e1 ++ e2)
    | none =>
      let dat2 := setKey dat "bsdf" (vStr s.default_mat)
      (Except.ok (),
       { s with scene :=
           { s.scene with primitives := s.scene.primitives ++ [dat2] } },
       e1)
  else
    (Except.ok (), s, [])

/-- The object-traversal loop of `add_all`, stopping at the first raising
conversion (a Python exception propagates out of the loop). -/
def TungstenScene.add_objects (env : Env) :
    List HostObject → TungstenScene →
      Except Unit Unit × TungstenScene × List Effect
  | [], s => (Except.ok (), s, [])
  | o :: os, s =>
    match TungstenScene.add_object env o s with
    | (Except.ok _, s1, e1) =>
      let r := TungstenScene.add_objects env os s1
      (r.1, r.2.1, e1 ++ r.2.2)
    | (Except.error e, s1, e1) => (Except.error e, s1, e1)

/-- `TungstenScene.add_all`: renderer merge, integrator merge, optional
world primitive, camera overwrite, then per-object traversal. -/
def TungstenScene.add_all (env : Env) (scene : HostScene) (s : TungstenScene) :
    Except Unit Unit × TungstenScene × List Effect :=
  let s1 :=
    { s with scene :=
        { s.scene with renderer := dictUpdate s.scene.renderer env.rendererData } }
  let s2 :=
    { s1 with scene :=
        { s1.scene with
            integrator := dictUpdate s1.scene.integrator env.integratorData } }
  let ws := match scene.world with
    | some _ => TungstenScene.add_world env s2
    | none => (s2, [])
  let cs := TungstenScene.add_camera env scene scene.camera ws.1
  let os := TungstenScene.add_objects env scene.objects cs.1
  (os.1, os.2.1,
   [Effect.convRenderer, Effect.convIntegrator] ++ ws.2 ++ cs.2 ++ os.2.2)

/-! ### The export operator (`W_OT_export.execute`) -/

/-- The operator's properties (file path and the three toggles). -/
structure ExportProps where
  filepath : String
  self_contained : Bool
  zip : Bool
  compress : Bool

/-- The operator's return status (`FINISHED` / `CANCELLED`). -/
inductive OpResult where
  | finished : OpResult
  | cancelled : OpResult
deriving DecidableEq

/-- `W_OT_export.execute`: the target-path precondition checks, then the
zip-mode (temporary directory, archive) or directory-mode (persistent
caller directory) pipeline.  The middle component is the session that was
created, `none` when the export was rejected up front. -/
def W_OT_export.execute (env : Env) (props : ExportProps) (scene : HostScene) :
    Except Unit OpResult × Option TungstenScene × List Effect :=
  let path := props.filepath
  if env.pathExists path = true ∧ props.zip = true ∧
      env.pathKind path ≠ PathKind.file then
    (Except.ok OpResult.cancelled, none, [])
  else if env.pathExists path = true ∧ props.zip = false ∧
      env.pathKind path ≠ PathKind.dir then
    (Except.ok OpResult.cancelled, none, [])
  else if props.zip then
    let is := TungstenScene.init env true props.self_contained none
    match TungstenScene.add_all env scene is.1 with
    | (Except.ok _, s1, e1) =>
      (Except.ok OpResult.finished, some s1,
       is.2 ++ e1 ++ TungstenScene.save s1 ++
         TungstenScene.to_zip s1 path props.compress)
    | (Except.error err, s1, e1) => (Except.error err, some s1, is.2 ++ e1)
  else
    let is := TungstenScene.init env false props.self_contained (some path)
    match TungstenScene.add_all env scene is.1 with
    | (Except.ok _, s1, e1) =>
      (Except.ok OpResult.finished, some s1,
       is.2 ++ e1 ++ TungstenScene.save s1)
    | (Except.error err, s1, e1) => (Except.error err, some s1, is.2 ++ e1)

/-! ### Concrete fixtures used by the witness theorems -/

/-- A small concrete environment: one failing material name, one failing
image name, one existing on-disk file, an existing output directory. -/
def envW : Env :=
  { rendererData := [("spp", vInt 64), ("output_file", vStr "out.png")]
    integratorData := [("type", vStr "path_tracer")]
    worldData := [("type", vStr "infinite_sphere")]
    cameraData := [("type", vStr "pinhole"), ("fov", vInt 60)]
    matData := fun m =>
      if m.name = "failmat" then none
      else some ([("bsdf", vStr m.name)],
                 some [("name", vStr m.name), ("type", vStr "lambert")])
    pathKind := fun p =>
      if p = "/assets/tex.png" then PathKind.file
      else if p = "/out" then PathKind.dir
      else PathKind.absent
    relpath := fun _ _ => some "rel/tex.png"
    abspath := fun fp _ => fp
    saveOk := fun im _ _ => decide (im.name ≠ "failsave")
    tmpdir := "/tmp/carbidew" }

/-- A fresh zip-mode session over the temporary directory. -/
def sW : TungstenScene := (TungstenScene.init envW true false none).1

/-- A concrete host material. -/
def matW : Material := { name := "steel" }

/-- A concrete host image, renderer-compatible, backed by a real file. -/
def imW : Image :=
  { name := "tex", file_format := "PNG", filepath := "/assets/tex.png",
    library := none }

/-- A non-geometry host object (a lamp). -/
def lampW : HostObject :=
  { name := "lamp", type := "LAMP", matrix_world := fun _ _ => 0,
    material_slots := [] }

/-- An identity-like concrete world matrix with distinct entries. -/
def matrixW : Mat4 := fun i j =>
  if i = j then 1 else (i : ℕ) * 4 + (j : ℕ)

/-- A concrete mesh object with no material slots. -/
def meshW : HostObject :=
  { name := "cube", type := "MESH", matrix_world := matrixW,
    material_slots := [] }

/-- A concrete mesh object whose slot 0 carries `matW`. -/
def meshMatW : HostObject :=
  { name := "ball", type := "SURFACE", matrix_world := matrixW,
    material_slots := [{ material := some matW }] }

/-- A concrete host scene with a world, one camera and two objects. -/
def sceneW : HostScene :=
  { render := { resolution_x := 640, resolution_y := 480,
                resolution_percentage := 50 }
    world := some ()
    camera := { matrix_world := matrixW }
    objects := [meshW, lampW] }

/-! ### C1 — at-most-once conversion per cached name -/

/-- C1: the first `add_material` call for a name converts, appends the
full record to `bsdfs` when the converter returns one, and caches the
reference fragment; a call on an already-cached name returns the cached
fragment with no state change and no effects, and `add_image` on a cached
name likewise returns immediately with no file write. -/
theorem add_material_add_image_at_most_once
    (env : Env) (m : Material) (im : Image) (s : TungstenScene) :
    (∀ frag, getKey s.mats m.name = some frag →
      TungstenScene.add_material env m s = (Except.ok frag, s, [])) ∧
    (∀ obj mat, getKey s.mats m.name = none →
      env.matData m = some (obj, mat) →
      (TungstenScene.add_material env m s).1 = Except.ok obj ∧
      (TungstenScene.add_material env m s).2.1.scene.bsdfs =
        s.scene.bsdfs ++ (match mat with | some r0 => [r0] | none => []) ∧
      (TungstenScene.add_material env m s).2.1.mats =
        setKey s.mats m.name obj ∧
      (TungstenScene.add_material env m s).2.2 =
        [Effect.convMaterial m.name] ∧
      TungstenScene.add_material env m (TungstenScene.add_material env m s).2.1
        = (Except.ok obj, (TungstenScene.add_material env m s).2.1, [])) ∧
    (∀ p, getKey s.images im.name = some p →
      TungstenScene.add_image env im s = (Except.ok p, s, [])) := by
  refine ⟨?_, ?_, ?_⟩
  · intro frag hfrag
    simp [TungstenScene.add_material, hfrag]
  · intro obj mat hnone hconv
    cases mat with
    | none =>
        simp [TungstenScene.add_material, hnone, hconv, getKey_setKey_self]
    | some r0 =>
        simp [TungstenScene.add_material, hnone, hconv, getKey_setKey_self]
  · intro p hp
    simp [TungstenScene.add_image, hp]

/-- C1 witness: after converting `matW` in the fresh session, a second
call returns the cached fragment unchanged, and a cached image name is
returned with no write. -/
theorem add_material_add_image_at_most_once_witness :
    TungstenScene.add_material envW matW
        { sW with mats := [("steel", [("bsdf", vStr "steel")])] } =
      (Except.ok [("bsdf", vStr "steel")],
       { sW with mats := [("steel", [("bsdf", vStr "steel")])] }, []) ∧
    TungstenScene.add_image envW imW
        { sW with images := [("tex", "rel/tex.png")] } =
      (Except.ok "rel/tex.png",
       { sW with images := [("tex", "rel/tex.png")] }, []) := by
  constructor
  · exact (add_material_add_image_at_most_once envW matW imW
      { sW with mats := [("steel", [("bsdf", vStr "steel")])] }).1
      [("bsdf", vStr "steel")] rfl
  · exact (add_material_add_image_at_most_once envW matW imW
      { sW with images := [("tex", "rel/tex.png")] }).2.2
      "rel/tex.png" rfl

/-! ### C6 — non-geometry objects are skipped without any effect -/

/-- C6: for an object whose type tag is outside
`{MESH, CURVE, SURFACE, META, FONT}`, `add_object` returns with the
session state unchanged and an empty effect trace: no primitive is
appended, no mesh file is written, no cache or document field changes. -/
theorem add_object_skips_non_geometry (env : Env) (o : HostObject)
    (s : TungstenScene)
    (h : o.type ∉ (["MESH", "CURVE", "SURFACE", "META", "FONT"] : List String)) :
    TungstenScene.add_object env o s = (Except.ok (), s, []) := by
  simp [TungstenScene.add_object, h]

/-- C6 witness: a lamp object is skipped with no state change. -/
theorem add_object_skips_non_geometry_witness :
    TungstenScene.add_object envW lampW sW = (Except.ok (), sW, []) :=
  add_object_skips_non_geometry envW lampW sW (by decide)

/-! ### C9 — failed conversions are not recorded in the caches -/

/-- C9: a raising material converter leaves the session (in particular the
`mats` cache) unchanged, and a raising image save leaves the `images`
cache unchanged, in both of `add_image`'s saving branches; a failed
attempt is therefore retried on the next call with the same key. -/
theorem failed_conversion_not_cached (env : Env) (m : Material) (im : Image)
    (s : TungstenScene) :
    (getKey s.mats m.name = none → env.matData m = none →
      (TungstenScene.add_material env m s).1 = Except.error () ∧
      (TungstenScene.add_material env m s).2.1 = s ∧
      getKey (TungstenScene.add_material env m s).2.1.mats m.name = none) ∧
    (∀ ext, getKey s.images im.name = none →
      getKey IMAGE_FORMATS im.file_format = some ext →
      ¬(env.abspath im.filepath im.library ≠ "" ∧
        env.pathExists (env.abspath im.filepath im.library) = true ∧
        s.self_contained = false) →
      env.saveOk im (im.name ++ ext) im.file_format = false →
      (TungstenScene.add_image env im s).1 = Except.error () ∧
      (TungstenScene.add_image env im s).2.1 = s ∧
      getKey (TungstenScene.add_image env im s).2.1.images im.name = none) ∧
    (getKey s.images im.name = none →
      getKey IMAGE_FORMATS im.file_format = none →
      env.saveOk im (im.name ++ ".png") "PNG" = false →
      (TungstenScene.add_image env im s).1 = Except.error () ∧
      (TungstenScene.add_image env im s).2.1 = s ∧
      getKey (TungstenScene.add_image env im s).2.1.images im.name = none) := by
  refine ⟨?_, ?_, ?_⟩
  · intro hnone hconv
    simp [TungstenScene.add_material, hnone, hconv]
  · intro ext hnone hfmt hcond hsave
    simp [TungstenScene.add_image, hnone, hfmt, hcond,
      TungstenScene.save_image_as, hsave]
  · intro hnone hfmt hsave
    simp [TungstenScene.add_image, hnone, hfmt,
      TungstenScene.save_image_as, hsave]

/-- C9 witness: the failing material and a failing save of an unknown
format both leave the fresh session's caches empty. -/
theorem failed_conversion_not_cached_witness :
    (TungstenScene.add_material envW { name := "failmat" } sW).2.1 = sW ∧
    (TungstenScene.add_image envW
        { name := "failsave", file_format := "EXR", filepath := "",
          library := none } sW).2.1 = sW := by
  constructor
  · exact ((failed_conversion_not_cached envW { name := "failmat" }
      imW sW).1 rfl rfl).2.1
  · exact ((failed_conversion_not_cached envW matW
      { name := "failsave", file_format := "EXR", filepath := "",
        library := none } sW).2.2 rfl rfl (by decide)).2.1

/-! ### C10 — the material fragment is merged over the object record -/

/-- The object record built by `add_object` before the material merge:
`name`, `type`, `smooth`, `file`, then `transform`. -/
def objBaseRecord (o : HostObject) : Dict :=
  setKey [("name", vStr o.name), ("type", vStr "mesh"),
          ("smooth", vBool true), ("file", vStr (o.name ++ ".wo3"))]
    "transform" (vArr ((o.matrix_world.flatten).map vRat))

theorem objBaseRecord_eq (o : HostObject) :
    objBaseRecord o =
      [("name", vStr o.name), ("type", vStr "mesh"),
       ("smooth", vBool true), ("file", vStr (o.name ++ ".wo3")),
       ("transform", vArr ((o.matrix_world.flatten).map vRat))] := rfl

/-- C10: when slot 0 holds a material and its conversion returns the
fragment `obj`, the appended primitive is the dict-update of the object's
own record with `obj`: every key of `obj` wins (including `name` or
`file`), and every record field absent from `obj` is unchanged. -/
theorem add_object_fragment_merge (env : Env) (o : HostObject)
    (s s2 : TungstenScene) (m : Material) (obj : Dict) (e2 : List Effect)
    (htype : o.type ∈ (["MESH", "CURVE", "SURFACE", "META", "FONT"] : List String))
    (hslot : o.material_slots.head?.bind (fun slot => slot.material) = some m)
    (hmat : TungstenScene.add_material env m s = (Except.ok obj, s2, e2))
    (hnodup : (obj.map Prod.fst).Nodup) :
    TungstenScene.add_object env o s =
      (Except.ok (),
       { s2 with scene :=
           { s2.scene with primitives :=
               s2.scene.primitives ++ [dictUpdate (objBaseRecord o) obj] } },
       [Effect.writeMesh (o.name ++ ".wo3")] ++ e2) ∧
    (∀ k v, getKey obj k = some v →
      getKey (dictUpdate (objBaseRecord o) obj) k = some v) ∧
    (getKey obj "name" = none →
      getKey (dictUpdate (objBaseRecord o) obj) "name" = some (vStr o.name)) ∧
    (getKey obj "type" = none →
      getKey (dictUpdate (objBaseRecord o) obj) "type" = some (vStr "mesh")) ∧
    (getKey obj "smooth" = none →
      getKey (dictUpdate (objBaseRecord o) obj) "smooth" = some (vBool true)) ∧
    (getKey obj "file" = none →
      getKey (dictUpdate (objBaseRecord o) obj) "file" =
        some (vStr (o.name ++ ".wo3"))) ∧
    (getKey obj "transform" = none →
      getKey (dictUpdate (objBaseRecord o) obj) "transform" =
        some (vArr ((o.matrix_world.flatten).map vRat))) ∧
    (∀ k, k ∉ (["name", "type", "smooth", "file", "transform"] : List String) →
      getKey obj k = none →
      getKey (dictUpdate (objBaseRecord o) obj) k = none) := by
  refine ⟨?_, ?_, ?_, ?_, ?_, ?_, ?_, ?_⟩
  · simp only [TungstenScene.add_object, htype, if_true, hslot,
      TungstenScene.add_mesh, hmat]
    rfl
  · intro k v hk
    rw [getKey_dictUpdate _ _ _ hnodup, hk]
    rfl
  · intro hk
    rw [getKey_dictUpdate_none _ _ _ hk, objBaseRecord_eq]
    rfl
  · intro hk
    rw [getKey_dictUpdate_none _ _ _ hk, objBaseRecord_eq]
    rfl
  · intro hk
    rw [getKey_dictUpdate_none _ _ _ hk, objBaseRecord_eq]
    rfl
  · intro hk
    rw [getKey_dictUpdate_none _ _ _ hk, objBaseRecord_eq]
    rfl
  · intro hk
    rw [getKey_dictUpdate_none _ _ _ hk, objBaseRecord_eq]
    rfl
  · intro k hk hnone
    rw [getKey_dictUpdate_none _ _ _ hnone, objBaseRecord_eq]
    apply getKey_eq_none_of_not_mem
    simp only [List.map_cons, List.map_nil]
    intro hc
    simp only [List.mem_cons, List.not_mem_nil] at hc hk
    push_neg at hk
    rcases hc with h | h | h | h | h | h
    · exact hk.1 h
    · exact hk.2.1 h
    · exact hk.2.2.1 h
    · exact hk.2.2.2.1 h
    · exact hk.2.2.2.2.1 h
    · exact h

/-- C10 witness: the fragment of `matW` (a single `bsdf` key) is merged
into the record of a concrete surface object: `bsdf` is added and the
record's own `name` survives. -/
theorem add_object_fragment_merge_witness :
    getKey (dictUpdate (objBaseRecord meshMatW) [("bsdf", vStr "steel")])
        "bsdf" = some (vStr "steel") ∧
    getKey (dictUpdate (objBaseRecord meshMatW) [("bsdf", vStr "steel")])
        "name" = some (vStr "ball") := by
  have h := add_object_fragment_merge envW meshMatW sW
    (TungstenScene.add_material envW matW sW).2.1 matW
    [("bsdf", vStr "steel")] [Effect.convMaterial "steel"]
    (by decide) rfl rfl (by decide)
  exact ⟨h.2.1 "bsdf" (vStr "steel") rfl, h.2.2.1 rfl⟩

/-! ### Frame lemmas for the session operations -/

theorem head?_append_left {α : Type} (l l' : List α) (a : α)
    (h : l.head? = some a) : (l ++ l').head? = some a := by
  cases l with
  | nil => simp at h
  | cons x xs => simpa using h

/-- `add_material` only appends to `bsdfs` and writes the `mats` cache;
every other document field and the default-material name are untouched. -/
theorem add_material_frame (env : Env) (m : Material) (s : TungstenScene) :
    (∃ tail, (TungstenScene.add_material env m s).2.1.scene.bsdfs =
      s.scene.bsdfs ++ tail) ∧
    (TungstenScene.add_material env m s).2.1.scene.primitives =
      s.scene.primitives ∧
    (TungstenScene.add_material env m s).2.1.scene.camera = s.scene.camera ∧
    (TungstenScene.add_material env m s).2.1.scene.renderer =
      s.scene.renderer ∧
    (TungstenScene.add_material env m s).2.1.scene.integrator =
      s.scene.integrator ∧
    (TungstenScene.add_material env m s).2.1.default_mat = s.default_mat := by
  unfold TungstenScene.add_material
  rcases hg : getKey s.mats m.name with _ | obj
  · rcases hc : env.matData m with _ | ⟨obj, mat⟩
    · exact ⟨⟨[], by simp⟩, rfl, rfl, rfl, rfl, rfl⟩
    · cases mat with
      | none => exact ⟨⟨[], by simp⟩, rfl, rfl, rfl, rfl, rfl⟩
      | some r0 => exact ⟨⟨[r0], rfl⟩, rfl, rfl, rfl, rfl, rfl⟩
  · exact ⟨⟨[], by simp⟩, rfl, rfl, rfl, rfl, rfl⟩

/-- `add_image` never touches the document or the material cache. -/
theorem add_image_frame (env : Env) (im : Image) (s : TungstenScene) :
    (TungstenScene.add_image env im s).2.1.scene = s.scene ∧
    (TungstenScene.add_image env im s).2.1.default_mat = s.default_mat ∧
    (TungstenScene.add_image env im s).2.1.mats = s.mats := by
  unfold TungstenScene.add_image TungstenScene.save_image_as
  rcases hg : getKey s.images im.name with _ | p
  · rcases hf : getKey IMAGE_FORMATS im.file_format with _ | ext
    · dsimp only
      split <;> exact ⟨rfl, rfl, rfl⟩
    · dsimp only
      split
      · split <;> exact ⟨rfl, rfl, rfl⟩
      · split <;> exact ⟨rfl, rfl, rfl⟩
  · exact ⟨rfl, rfl, rfl⟩

/-- `add_object` appends to `primitives` and (through `add_material`) to
`bsdfs`; camera, renderer, integrator and the default name survive. -/
theorem add_object_frame (env : Env) (o : HostObject) (s : TungstenScene) :
    (∃ tail, (TungstenScene.add_object env o s).2.1.scene.bsdfs =
      s.scene.bsdfs ++ tail) ∧
    (TungstenScene.add_object env o s).2.1.scene.camera = s.scene.camera ∧
    (TungstenScene.add_object env o s).2.1.scene.renderer =
      s.scene.renderer ∧
    (TungstenScene.add_object env o s).2.1.scene.integrator =
      s.scene.integrator ∧
    (TungstenScene.add_object env o s).2.1.default_mat = s.default_mat := by
  unfold TungstenScene.add_object
  by_cases htype :
      o.type ∈ (["MESH", "CURVE", "SURFACE", "META", "FONT"] : List String)
  · simp only [htype, if_true]
    rcases hslot : o.material_slots.head?.bind (fun slot => slot.material) with
      _ | m
    · exact ⟨⟨[], (List.append_nil _).symm⟩, rfl, rfl, rfl, rfl⟩
    · dsimp only
      have hf := add_material_frame env m s
      rcases hmat : TungstenScene.add_material env m s with ⟨r, s2, e2⟩
      rw [hmat] at hf
      cases r with
      | ok obj =>
          exact ⟨hf.1, hf.2.2.1, hf.2.2.2.1, hf.2.2.2.2.1, hf.2.2.2.2.2⟩
      | error e =>
          exact ⟨hf.1, hf.2.2.1, hf.2.2.2.1, hf.2.2.2.2.1, hf.2.2.2.2.2⟩
  · rw [if_neg htype]
    exact ⟨⟨[], (List.append_nil _).symm⟩, rfl, rfl, rfl, rfl⟩

/-- The traversal loop inherits the `add_object` frame. -/
theorem add_objects_frame (env : Env) (os : List HostObject)
    (s : TungstenScene) :
    (∃ tail, (TungstenScene.add_objects env os s).2.1.scene.bsdfs =
      s.scene.bsdfs ++ tail) ∧
    (TungstenScene.add_objects env os s).2.1.scene.camera =
      s.scene.camera ∧
    (TungstenScene.add_objects env os s).2.1.scene.renderer =
      s.scene.renderer ∧
    (TungstenScene.add_objects env os s).2.1.scene.integrator =
      s.scene.integrator ∧
    (TungstenScene.add_objects env os s).2.1.default_mat = s.default_mat := by
  induction os generalizing s with
  | nil => exact ⟨⟨[], (List.append_nil _).symm⟩, rfl, rfl, rfl, rfl⟩
  | cons o os ih =>
      unfold TungstenScene.add_objects
      have hf := add_object_frame env o s
      rcases hobj : TungstenScene.add_object env o s with ⟨r, s1, e1⟩
      rw [hobj] at hf
      cases r with
      | ok u =>
          have hi := ih s1
          obtain ⟨t1, ht1⟩ := hf.1
          obtain ⟨t2, ht2⟩ := hi.1
          refine ⟨⟨t1 ++ t2, ?_⟩, ?_, ?_, ?_, ?_⟩
          · show (TungstenScene.add_objects env os s1).2.1.scene.bsdfs = _
            rw [ht2, ht1, List.append_assoc]
          · exact hi.2.1.trans hf.2.1
          · exact hi.2.2.1.trans hf.2.2.1
          · exact hi.2.2.2.1.trans hf.2.2.2.1
          · exact hi.2.2.2.2.trans hf.2.2.2.2
      | error e =>
          exact ⟨hf.1, hf.2.1, hf.2.2.1, hf.2.2.2.1, hf.2.2.2.2⟩

/-- `add_all` only ever appends to `bsdfs` and keeps the default name. -/
theorem add_all_frame (env : Env) (scene : HostScene) (s : TungstenScene) :
    (∃ tail, (TungstenScene.add_all env scene s).2.1.scene.bsdfs =
      s.scene.bsdfs ++ tail) ∧
    (TungstenScene.add_all env scene s).2.1.default_mat = s.default_mat := by
  unfold TungstenScene.add_all
  cases hw : scene.world with
  | none =>
      dsimp only
      have hf := add_objects_frame env scene.objects
        (TungstenScene.add_camera env scene scene.camera
          { s with scene :=
              { s.scene with
                  renderer := dictUpdate s.scene.renderer env.rendererData
                  integrator :=
                    dictUpdate s.scene.integrator env.integratorData } }).1
      exact ⟨hf.1, hf.2.2.2.2⟩
  | some u =>
      dsimp only
      have hf := add_objects_frame env scene.objects
        (TungstenScene.add_camera env scene scene.camera
          (TungstenScene.add_world env
            { s with scene :=
                { s.scene with
                    renderer := dictUpdate s.scene.renderer env.rendererData
                    integrator :=
                      dictUpdate s.scene.integrator env.integratorData } }).1).1
      exact ⟨hf.1, hf.2.2.2.2⟩

/-! ### C2 — the default material invariant and the fallback bsdf -/

/-- The default-material invariant: `bsdfs` starts with the preallocated
`__default_mat` lambert record and the session's fallback name is that
record's name. -/
def DefaultInv (s : TungstenScene) : Prop :=
  s.default_mat = "__default_mat" ∧
  s.scene.bsdfs.head? = some defaultMatRecord

/-- C2: a fresh session has `bsdfs = [default]`; every session operation
preserves the invariant that `bsdfs[0]` is the default lambert record
with albedo 0.8; and an eligible object with no (or a null) slot-0
material is appended with a `bsdf` field naming the default material. -/
theorem default_material_invariant :
    (∀ env c sc p, (TungstenScene.init env c sc p).1.scene.bsdfs =
        [defaultMatRecord] ∧ DefaultInv (TungstenScene.init env c sc p).1) ∧
    (∀ env m s, DefaultInv s →
      DefaultInv (TungstenScene.add_material env m s).2.1) ∧
    (∀ env im s, DefaultInv s →
      DefaultInv (TungstenScene.add_image env im s).2.1) ∧
    (∀ env s, DefaultInv s → DefaultInv (TungstenScene.add_world env s).1) ∧
    (∀ env scene cam s, DefaultInv s →
      DefaultInv (TungstenScene.add_camera env scene cam s).1) ∧
    (∀ env o s, DefaultInv s →
      DefaultInv (TungstenScene.add_object env o s).2.1) ∧
    (∀ env scene s, DefaultInv s →
      DefaultInv (TungstenScene.add_all env scene s).2.1) ∧
    (∀ env o s,
      o.type ∈ (["MESH", "CURVE", "SURFACE", "META", "FONT"] : List String) →
      o.material_slots.head?.bind (fun slot => slot.material) = none →
      (TungstenScene.add_object env o s).2.1.scene.primitives =
        s.scene.primitives ++
          [setKey (objBaseRecord o) "bsdf" (vStr s.default_mat)] ∧
      getKey (setKey (objBaseRecord o) "bsdf" (vStr s.default_mat)) "bsdf" =
        some (vStr s.default_mat)) := by
  refine ⟨?_, ?_, ?_, ?_, ?_, ?_, ?_, ?_⟩
  · intro env c sc p
    exact ⟨rfl, rfl, rfl⟩
  · intro env m s h
    have hf := add_material_frame env m s
    exact ⟨hf.2.2.2.2.2.trans h.1,
      hf.1.choose_spec ▸ head?_append_left _ _ _ h.2⟩
  · intro env im s h
    have hf := add_image_frame env im s
    exact ⟨hf.2.1.trans h.1, hf.1 ▸ h.2⟩
  · intro env s h
    exact ⟨h.1, h.2⟩
  · intro env scene cam s h
    exact ⟨h.1, h.2⟩
  · intro env o s h
    have hf := add_object_frame env o s
    exact ⟨hf.2.2.2.2.trans h.1,
      hf.1.choose_spec ▸ head?_append_left _ _ _ h.2⟩
  · intro env scene s h
    have hf := add_all_frame env scene s
    exact ⟨hf.2.trans h.1,
      hf.1.choose_spec ▸ head?_append_left _ _ _ h.2⟩
  · intro env o s htype hslot
    constructor
    · simp only [TungstenScene.add_object, htype, if_true, hslot,
        TungstenScene.add_mesh]
      rfl
    · exact getKey_setKey_self _ _ _

/-- C2 witness: the fresh session starts with exactly the default
material, and a concrete mesh object without material slots is appended
with `bsdf = "__default_mat"`. -/
theorem default_material_invariant_witness :
    sW.scene.bsdfs = [defaultMatRecord] ∧
    getKey (setKey (objBaseRecord meshW) "bsdf" (vStr sW.default_mat))
      "bsdf" = some (vStr "__default_mat") := by
  have h := default_material_invariant
  refine ⟨(h.1 envW true false none).1, ?_⟩
  have h8 := (h.2.2.2.2.2.2.2 envW meshW sW (by decide) rfl).2
  exact h8

/-! ### C3 — camera handedness flips, plain object transforms -/

/-- The Z-axis flip of the claim: scale −1 along `(0,0,1)`. -/
def flipZ : Mat4 := fun i j =>
  if i = j then (if (i : ℕ) = 2 then -1 else 1) else 0

/-- The X-axis flip of the claim: scale −1 along `(1,0,0)`. -/
def flipX : Mat4 := fun i j =>
  if i = j then (if (i : ℕ) = 0 then -1 else 1) else 0

/-- C3: the serialized camera transform is the camera's world matrix
composed on the right with the Z flip then the X flip, flattened
row-major; a non-camera object's record carries its world matrix
flattened unmodified, in both the fallback-material and the
converted-material branch (the fragment supplying no `transform` key). -/
theorem camera_flips_object_plain :
    Mat4.Scale (-1) ![0, 0, 1] = flipZ ∧
    Mat4.Scale (-1) ![1, 0, 0] = flipX ∧
    (∀ env scene cam s, getKey env.cameraData "transform" = none →
      getKey (TungstenScene.add_camera env scene cam s).1.scene.camera
          "transform" =
        some (vArr
          (((cam.matrix_world.mul flipZ).mul flipX).flatten.map vRat))) ∧
    (∀ env o s,
      o.type ∈ (["MESH", "CURVE", "SURFACE", "META", "FONT"] : List String) →
      o.material_slots.head?.bind (fun slot => slot.material) = none →
      getKey (setKey (objBaseRecord o) "bsdf" (vStr s.default_mat))
          "transform" = some (vArr (o.matrix_world.flatten.map vRat)) ∧
      (TungstenScene.add_object env o s).2.1.scene.primitives =
        s.scene.primitives ++
          [setKey (objBaseRecord o) "bsdf" (vStr s.default_mat)]) ∧
    (∀ env o s s2 m obj e2,
      o.type ∈ (["MESH", "CURVE", "SURFACE", "META", "FONT"] : List String) →
      o.material_slots.head?.bind (fun slot => slot.material) = some m →
      TungstenScene.add_material env m s = (Except.ok obj, s2, e2) →
      getKey obj "transform" = none →
      getKey (dictUpdate (objBaseRecord o) obj) "transform" =
        some (vArr (o.matrix_world.flatten.map vRat)) ∧
      (TungstenScene.add_object env o s).2.1.scene.primitives =
        s2.scene.primitives ++ [dictUpdate (objBaseRecord o) obj]) := by
  have hz : Mat4.Scale (-1) ![0, 0, 1] = flipZ := by
    funext i j
    fin_cases i <;> fin_cases j <;>
      norm_num [Mat4.Scale, flipZ, axisVec, Matrix.cons_val_zero,
        Matrix.cons_val_one, Matrix.head_cons, Fin.isValue] <;> decide
  have hx : Mat4.Scale (-1) ![1, 0, 0] = flipX := by
    funext i j
    fin_cases i <;> fin_cases j <;>
      norm_num [Mat4.Scale, flipX, axisVec, Matrix.cons_val_zero,
        Matrix.cons_val_one, Matrix.head_cons, Fin.isValue] <;> decide
  refine ⟨hz, hx, ?_, ?_, ?_⟩
  · intro env scene cam s h
    unfold TungstenScene.add_camera
    dsimp only
    rw [getKey_dictUpdate_none _ _ _ h, hz, hx]
    rfl
  · intro env o s htype hslot
    constructor
    · rw [getKey_setKey_ne _ _ _ _ (by decide), objBaseRecord_eq]
      rfl
    · simp only [TungstenScene.add_object, htype, if_true, hslot,
        TungstenScene.add_mesh]
      rfl
  · intro env o s s2 m obj e2 htype hslot hmat hnot
    constructor
    · rw [getKey_dictUpdate_none _ _ _ hnot, objBaseRecord_eq]
      rfl
    · simp only [TungstenScene.add_object, htype, if_true, hslot,
        TungstenScene.add_mesh, hmat]
      rfl

/-- C3 witness: for the concrete camera matrix the serialized camera
transform is its product with the two flips, and a concrete mesh object's
record carries its matrix unflipped. -/
theorem camera_flips_object_plain_witness :
    getKey (TungstenScene.add_camera envW sceneW
        { matrix_world := matrixW } sW).1.scene.camera "transform" =
      some (vArr (((matrixW.mul flipZ).mul flipX).flatten.map vRat)) ∧
    getKey (setKey (objBaseRecord meshW) "bsdf" (vStr sW.default_mat))
        "transform" = some (vArr (matrixW.flatten.map vRat)) := by
  constructor
  · exact camera_flips_object_plain.2.2.1 envW sceneW
      { matrix_world := matrixW } sW rfl
  · exact (camera_flips_object_plain.2.2.2.1 envW meshW sW
      (by decide) rfl).1

/-! ### C4 — the embed-vs-reference decision policy for images -/

/-- C4: for an uncached image (over a filesystem where the empty path does
not exist, as with `os.path.exists`), `add_image` follows the policy: a
renderer-compatible format whose resolved source exists, in a
non-self-contained session, is referenced by its path relative to the
working directory — or by its absolute path when relativization fails —
with no file written; otherwise a file is written into the working
directory, named `<image-name><native-extension>` in the native encoding
for compatible formats and `<image-name>.png` as PNG otherwise, and that
filename is returned. -/
theorem add_image_decision_policy (env : Env) (im : Image) (s : TungstenScene)
    (hnc : getKey s.images im.name = none)
    (hempty : env.pathExists "" = false) :
    (∀ ext, getKey IMAGE_FORMATS im.file_format = some ext →
      (∀ p, env.pathExists (env.abspath im.filepath im.library) = true →
        s.self_contained = false →
        env.relpath (env.abspath im.filepath im.library) s.dir = some p →
        TungstenScene.add_image env im s =
          (Except.ok p, { s with images := setKey s.images im.name p }, [])) ∧
      (env.pathExists (env.abspath im.filepath im.library) = true →
        s.self_contained = false →
        env.relpath (env.abspath im.filepath im.library) s.dir = none →
        TungstenScene.add_image env im s =
          (Except.ok (env.abspath im.filepath im.library),
           { s with images :=
               setKey s.images im.name (env.abspath im.filepath im.library) },
           [])) ∧
      (¬(env.pathExists (env.abspath im.filepath im.library) = true ∧
          s.self_contained = false) →
        env.saveOk im (im.name ++ ext) im.file_format = true →
        TungstenScene.add_image env im s =
          (Except.ok (im.name ++ ext),
           { s with images := setKey s.images im.name (im.name ++ ext) },
           [Effect.writeImage (im.name ++ ext) im.file_format]))) ∧
    (getKey IMAGE_FORMATS im.file_format = none →
      env.saveOk im (im.name ++ ".png") "PNG" = true →
      TungstenScene.add_image env im s =
        (Except.ok (im.name ++ ".png"),
         { s with images := setKey s.images im.name (im.name ++ ".png") },
         [Effect.writeImage (im.name ++ ".png") "PNG"])) := by
  constructor
  · intro ext hfmt
    refine ⟨?_, ?_, ?_⟩
    · intro p hex hsc hrel
      have hne : env.abspath im.filepath im.library ≠ "" := by
        intro hc
        rw [hc, hempty] at hex
        exact Bool.noConfusion hex
      simp only [TungstenScene.add_image, hnc, hfmt]
      rw [if_pos ⟨hne, hex, hsc⟩, hrel]
    · intro hex hsc hrel
      have hne : env.abspath im.filepath im.library ≠ "" := by
        intro hc
        rw [hc, hempty] at hex
        exact Bool.noConfusion hex
      simp only [TungstenScene.add_image, hnc, hfmt]
      rw [if_pos ⟨hne, hex, hsc⟩, hrel]
    · intro hno hsave
      have hcond : ¬(env.abspath im.filepath im.library ≠ "" ∧
          env.pathExists (env.abspath im.filepath im.library) = true ∧
          s.self_contained = false) := by
        intro hc
        exact hno ⟨hc.2.1, hc.2.2⟩
      simp only [TungstenScene.add_image, hnc, hfmt]
      rw [if_neg hcond]
      simp only [TungstenScene.save_image_as, hsave, if_true]
  · intro hfmt hsave
    simp only [TungstenScene.add_image, hnc, hfmt]
    simp only [TungstenScene.save_image_as, hsave, if_true]

/-- C4 witness: the concrete compatible on-disk image in the
non-self-contained session is referenced relatively with no write, and an
unknown-format image is converted to `<name>.png`. -/
theorem add_image_decision_policy_witness :
    TungstenScene.add_image envW imW sW =
      (Except.ok "rel/tex.png",
       { sW with images := setKey sW.images "tex" "rel/tex.png" }, []) ∧
    TungstenScene.add_image envW
        { name := "env", file_format := "OPEN_EXR", filepath := "",
          library := none } sW =
      (Except.ok "env.png",
       { sW with images := setKey sW.images "env" "env.png" },
       [Effect.writeImage "env.png" "PNG"]) := by
  constructor
  · exact ((add_image_decision_policy envW imW sW rfl (by decide)).1
      ".png" rfl).1 "rel/tex.png" (by decide) rfl rfl
  · exact (add_image_decision_policy envW
      { name := "env", file_format := "OPEN_EXR", filepath := "",
        library := none } sW rfl (by decide)).2 rfl (by decide)

/-! ### Effect-shape and ownership lemmas for the pipeline -/

theorem add_material_effects_shape (env : Env) (m : Material)
    (s : TungstenScene) :
    ∀ e ∈ (TungstenScene.add_material env m s).2.2,
      ∃ n, e = Effect.convMaterial n := by
  unfold TungstenScene.add_material
  rcases hg : getKey s.mats m.name with _ | obj
  · rcases hc : env.matData m with _ | ⟨obj, mat⟩
    · intro e he
      simp only [List.mem_singleton] at he
      exact ⟨m.name, he⟩
    · cases mat <;>
      · intro e he
        simp only [List.mem_singleton] at he
        exact ⟨m.name, he⟩
  · intro e he
    simp at he

theorem add_object_effects_shape (env : Env) (o : HostObject)
    (s : TungstenScene) :
    ∀ e ∈ (TungstenScene.add_object env o s).2.2,
      (∃ n, e = Effect.convMaterial n) ∨ (∃ f, e = Effect.writeMesh f) := by
  unfold TungstenScene.add_object
  by_cases htype :
      o.type ∈ (["MESH", "CURVE", "SURFACE", "META", "FONT"] : List String)
  · rw [if_pos htype]
    rcases hslot : o.material_slots.head?.bind (fun slot => slot.material) with
      _ | m
    · intro e he
      simp only [TungstenScene.add_mesh, List.mem_singleton] at he
      exact Or.inr ⟨o.name ++ ".wo3", he⟩
    · dsimp only
      have hms := add_material_effects_shape env m s
      rcases hmat : TungstenScene.add_material env m s with ⟨r, s2, e2⟩
      rw [hmat] at hms
      cases r with
      | ok obj =>
          intro e he
          rcases List.mem_append.mp he with h1 | h2
          · simp only [TungstenScene.add_mesh, List.mem_singleton] at h1
            exact Or.inr ⟨o.name ++ ".wo3", h1⟩
          · exact Or.inl (hms e h2)
      | error err =>
          intro e he
          rcases List.mem_append.mp he with h1 | h2
          · simp only [TungstenScene.add_mesh, List.mem_singleton] at h1
            exact Or.inr ⟨o.name ++ ".wo3", h1⟩
          · exact Or.inl (hms e h2)
  · rw [if_neg htype]
    intro e he
    simp at he

theorem add_objects_effects_shape (env : Env) (os : List HostObject)
    (s : TungstenScene) :
    ∀ e ∈ (TungstenScene.add_objects env os s).2.2,
      (∃ n, e = Effect.convMaterial n) ∨ (∃ f, e = Effect.writeMesh f) := by
  induction os generalizing s with
  | nil =>
      intro e he
      simp [TungstenScene.add_objects] at he
  | cons o os ih =>
      unfold TungstenScene.add_objects
      have ho := add_object_effects_shape env o s
      rcases hobj : TungstenScene.add_object env o s with ⟨r, s1, e1⟩
      rw [hobj] at ho
      cases r with
      | ok u =>
          intro e he
          rcases List.mem_append.mp he with h1 | h2
          · exact ho e h1
          · exact ih s1 e h2
      | error err =>
          intro e he
          exact ho e he

/-- The full effect trace of `add_all`: the four staged conversions in
order, then object-traversal effects only. -/
theorem add_all_effects_shape (env : Env) (scene : HostScene)
    (s : TungstenScene) :
    ∃ tail, (TungstenScene.add_all env scene s).2.2 =
      [Effect.convRenderer, Effect.convIntegrator] ++
        (if scene.world.isSome then [Effect.convWorld] else []) ++
        [Effect.convCamera] ++ tail ∧
      ∀ e ∈ tail, (∃ n, e = Effect.convMaterial n) ∨
        (∃ f, e = Effect.writeMesh f) := by
  unfold TungstenScene.add_all
  cases hw : scene.world with
  | none =>
      dsimp only
      exact ⟨_, rfl, add_objects_effects_shape env scene.objects _⟩
  | some u =>
      dsimp only
      exact ⟨_, rfl, add_objects_effects_shape env scene.objects _⟩

theorem add_material_owner (env : Env) (m : Material) (s : TungstenScene) :
    (TungstenScene.add_material env m s).2.1.dir = s.dir ∧
    (TungstenScene.add_material env m s).2.1.clean_on_del = s.clean_on_del := by
  unfold TungstenScene.add_material
  rcases hg : getKey s.mats m.name with _ | obj
  · rcases hc : env.matData m with _ | ⟨obj, mat⟩
    · exact ⟨rfl, rfl⟩
    · cases mat <;> exact ⟨rfl, rfl⟩
  · exact ⟨rfl, rfl⟩

theorem add_object_owner (env : Env) (o : HostObject) (s : TungstenScene) :
    (TungstenScene.add_object env o s).2.1.dir = s.dir ∧
    (TungstenScene.add_object env o s).2.1.clean_on_del = s.clean_on_del := by
  unfold TungstenScene.add_object
  by_cases htype :
      o.type ∈ (["MESH", "CURVE", "SURFACE", "META", "FONT"] : List String)
  · rw [if_pos htype]
    rcases hslot : o.material_slots.head?.bind (fun slot => slot.material) with
      _ | m
    · exact ⟨rfl, rfl⟩
    · dsimp only
      have hmo := add_material_owner env m s
      rcases hmat : TungstenScene.add_material env m s with ⟨r, s2, e2⟩
      rw [hmat] at hmo
      cases r with
      | ok obj => exact hmo
      | error err => exact hmo
  · rw [if_neg htype]
    exact ⟨rfl, rfl⟩

theorem add_objects_owner (env : Env) (os : List HostObject)
    (s : TungstenScene) :
    (TungstenScene.add_objects env os s).2.1.dir = s.dir ∧
    (TungstenScene.add_objects env os s).2.1.clean_on_del = s.clean_on_del := by
  induction os generalizing s with
  | nil => exact ⟨rfl, rfl⟩
  | cons o os ih =>
      unfold TungstenScene.add_objects
      have ho := add_object_owner env o s
      rcases hobj : TungstenScene.add_object env o s with ⟨r, s1, e1⟩
      rw [hobj] at ho
      cases r with
      | ok u =>
          exact ⟨(ih s1).1.trans ho.1, (ih s1).2.trans ho.2⟩
      | error err => exact ho

theorem add_all_owner (env : Env) (scene : HostScene) (s : TungstenScene) :
    (TungstenScene.add_all env scene s).2.1.dir = s.dir ∧
    (TungstenScene.add_all env scene s).2.1.clean_on_del = s.clean_on_del := by
  unfold TungstenScene.add_all
  cases hw : scene.world with
  | none =>
      dsimp only
      exact add_objects_owner env scene.objects _
  | some u =>
      dsimp only
      exact add_objects_owner env scene.objects _

/-- The object traversal never emits a directory removal. -/
theorem add_all_no_rmtree (env : Env) (scene : HostScene) (s : TungstenScene)
    (d : String) : Effect.rmtree d ∉ (TungstenScene.add_all env scene s).2.2 := by
  obtain ⟨tail, htail, hshape⟩ := add_all_effects_shape env scene s
  rw [htail]
  intro hmem
  simp only [List.append_assoc, List.mem_append, List.mem_cons,
    List.not_mem_nil] at hmem
  rcases hmem with (h | h | h) | hmem
  · exact Effect.noConfusion h
  · exact Effect.noConfusion h
  · exact h.elim
  · rcases hmem with h | hmem
    · by_cases hw : scene.world.isSome <;> simp [hw] at h
    · rcases hmem with (h | h) | h
      · exact Effect.noConfusion h
      · exact h.elim
      · rcases hshape _ h with ⟨n, hn⟩ | ⟨f, hf⟩
        · exact Effect.noConfusion hn
        · exact Effect.noConfusion hf

/-! ### C7 — wrong-kind target paths are rejected before any work -/

/-- C7: when the target path exists as a directory in archive mode, or as
a plain file in directory mode, `execute` cancels up front: no session is
created and the effect trace is empty. -/
theorem export_path_conflict_rejected (env : Env) (props : ExportProps)
    (scene : HostScene) :
    (props.zip = true → env.pathKind props.filepath = PathKind.dir →
      W_OT_export.execute env props scene =
        (Except.ok OpResult.cancelled, none, [])) ∧
    (props.zip = false → env.pathKind props.filepath = PathKind.file →
      W_OT_export.execute env props scene =
        (Except.ok OpResult.cancelled, none, [])) := by
  constructor
  · intro hz hk
    have hex : env.pathExists props.filepath = true := by
      simp [Env.pathExists, hk]
    have hnf : env.pathKind props.filepath ≠ PathKind.file := by
      rw [hk]
      exact fun hc => PathKind.noConfusion hc
    unfold W_OT_export.execute
    rw [if_pos ⟨hex, hz, hnf⟩]
  · intro hz hk
    have hex : env.pathExists props.filepath = true := by
      simp [Env.pathExists, hk]
    have hnd : env.pathKind props.filepath ≠ PathKind.dir := by
      rw [hk]
      exact fun hc => PathKind.noConfusion hc
    have hno : ¬(env.pathExists props.filepath = true ∧ props.zip = true ∧
        env.pathKind props.filepath ≠ PathKind.file) := by
      intro hc
      rw [hz] at hc
      exact Bool.noConfusion hc.2.1
    unfold W_OT_export.execute
    rw [if_neg hno, if_pos ⟨hex, hz, hnd⟩]

/-- C7 witness: archiving onto the existing directory `/out` and
directory-mode export onto the existing file `/assets/tex.png` are both
cancelled with an empty trace. -/
theorem export_path_conflict_rejected_witness :
    W_OT_export.execute envW
        { filepath := "/out", self_contained := true, zip := true,
          compress := true } sceneW =
      (Except.ok OpResult.cancelled, none, []) ∧
    W_OT_export.execute envW
        { filepath := "/assets/tex.png", self_contained := true, zip := false,
          compress := true } sceneW =
      (Except.ok OpResult.cancelled, none, []) := by
  constructor
  · exact (export_path_conflict_rejected envW
      { filepath := "/out", self_contained := true, zip := true,
        compress := true } sceneW).1 rfl (by decide)
  · exact (export_path_conflict_rejected envW
      { filepath := "/assets/tex.png", self_contained := true, zip := false,
        compress := true } sceneW).2 rfl (by decide)

/-! ### C5 — the working directory is removed iff the session is transient -/

theorem init_no_rmtree (env : Env) (c sc : Bool) (p : Option String)
    (d : String) : Effect.rmtree d ∉ (TungstenScene.init env c sc p).2 := by
  unfold TungstenScene.init
  cases p with
  | none => simp
  | some q =>
      dsimp only
      split <;> simp

/-- C5: for a session created by the export operator, the working
directory is removed on teardown exactly when the caller did not supply a
persistent directory: in zip mode the session owns the fresh temporary
directory, `clean_on_del` is set, and the combined trace removes it
exactly once; in directory mode the session uses the caller's path,
teardown is a no-op, and nothing in the trace removes the directory. -/
theorem transient_dir_removed_iff (env : Env) (props : ExportProps)
    (scene : HostScene) (r : Except Unit OpResult) (s : TungstenScene)
    (es : List Effect)
    (h : W_OT_export.execute env props scene = (r, some s, es)) :
    (props.zip = true →
      s.clean_on_del = true ∧ s.dir = env.tmpdir ∧
      TungstenScene.del s = [Effect.rmtree env.tmpdir] ∧
      (es ++ TungstenScene.del s).count (Effect.rmtree s.dir) = 1) ∧
    (props.zip = false →
      s.clean_on_del = false ∧ s.dir = props.filepath ∧
      TungstenScene.del s = [] ∧
      (es ++ TungstenScene.del s).count (Effect.rmtree s.dir) = 0) := by
  unfold W_OT_export.execute at h
  by_cases h1 : env.pathExists props.filepath = true ∧ props.zip = true ∧
      env.pathKind props.filepath ≠ PathKind.file
  · rw [if_pos h1] at h
    simp at h
  · rw [if_neg h1] at h
    by_cases h2 : env.pathExists props.filepath = true ∧ props.zip = false ∧
        env.pathKind props.filepath ≠ PathKind.dir
    · rw [if_pos h2] at h
      simp at h
    · rw [if_neg h2] at h
      by_cases hz : props.zip = true
      · rw [if_pos hz] at h
        dsimp only at h
        have how := add_all_owner env scene
          (TungstenScene.init env true props.self_contained none).1
        have hnr := add_all_no_rmtree env scene
          (TungstenScene.init env true props.self_contained none).1
        rcases hall : TungstenScene.add_all env scene
            (TungstenScene.init env true props.self_contained none).1 with
          ⟨r1, s1, e1⟩
        rw [hall] at h how hnr
        have hclean : s1.clean_on_del = true := how.2
        have hdir : s1.dir = env.tmpdir := how.1
        have hdel : TungstenScene.del s1 = [Effect.rmtree env.tmpdir] := by
          rw [TungstenScene.del, if_pos hclean, hdir]
        cases r1 with
        | ok u =>
            simp only [Prod.mk.injEq, Option.some.injEq] at h
            obtain ⟨hr, hs, hes⟩ := h
            subst hs
            refine ⟨fun _ => ⟨hclean, hdir, hdel, ?_⟩,
              fun hzf => by rw [hzf] at hz; exact Bool.noConfusion hz⟩
            rw [← hes, hdel, hdir]
            simp only [TungstenScene.init, TungstenScene.save,
              TungstenScene.to_zip, List.count_append]
            have hc1 : List.count (Effect.rmtree env.tmpdir)
                [Effect.mkdtemp env.tmpdir] = 0 := by
              simp [List.count_cons]
            have hc2 : List.count (Effect.rmtree env.tmpdir) e1 = 0 :=
              List.count_eq_zero.mpr (hnr env.tmpdir)
            have hc3 : List.count (Effect.rmtree env.tmpdir)
                [Effect.writeSceneFile s1.scenefile] = 0 := by
              simp [List.count_cons]
            have hc4 : List.count (Effect.rmtree env.tmpdir)
                [Effect.zipWrite s1.dir props.filepath props.compress] = 0 := by
              simp [List.count_cons]
            have hc5 : List.count (Effect.rmtree env.tmpdir)
                [Effect.rmtree env.tmpdir] = 1 := by
              simp [List.count_cons]
            omega
        | error err =>
            simp only [Prod.mk.injEq, Option.some.injEq] at h
            obtain ⟨hr, hs, hes⟩ := h
            subst hs
            refine ⟨fun _ => ⟨hclean, hdir, hdel, ?_⟩,
              fun hzf => by rw [hzf] at hz; exact Bool.noConfusion hz⟩
            rw [← hes, hdel, hdir]
            simp only [TungstenScene.init, List.count_append]
            have hc1 : List.count (Effect.rmtree env.tmpdir)
                [Effect.mkdtemp env.tmpdir] = 0 := by
              simp [List.count_cons]
            have hc2 : List.count (Effect.rmtree env.tmpdir) e1 = 0 :=
              List.count_eq_zero.mpr (hnr env.tmpdir)
            have hc5 : List.count (Effect.rmtree env.tmpdir)
                [Effect.rmtree env.tmpdir] = 1 := by
              simp [List.count_cons]
            omega
      · rw [if_neg hz] at h
        dsimp only at h
        have hzf : props.zip = false := Bool.eq_false_iff.mpr hz
        have how := add_all_owner env scene
          (TungstenScene.init env false props.self_contained
            (some props.filepath)).1
        have hnr := add_all_no_rmtree env scene
          (TungstenScene.init env false props.self_contained
            (some props.filepath)).1
        have hinr := init_no_rmtree env false props.self_contained
          (some props.filepath)
        rcases hall : TungstenScene.add_all env scene
            (TungstenScene.init env false props.self_contained
              (some props.filepath)).1 with ⟨r1, s1, e1⟩
        rw [hall] at h how hnr
        have hclean : s1.clean_on_del = false := how.2
        have hdir : s1.dir = props.filepath := how.1
        have hdel : TungstenScene.del s1 = [] := by
          rw [TungstenScene.del, if_neg]
          rw [hclean]
          exact fun hc => Bool.noConfusion hc
        cases r1 with
        | ok u =>
            simp only [Prod.mk.injEq, Option.some.injEq] at h
            obtain ⟨hr, hs, hes⟩ := h
            subst hs
            refine ⟨fun hzt => by rw [hzt] at hz; exact (hz rfl).elim,
              fun _ => ⟨hclean, hdir, hdel, ?_⟩⟩
            rw [← hes, hdel, hdir]
            simp only [TungstenScene.save, List.count_append,
              List.append_nil]
            have hc1 : List.count (Effect.rmtree props.filepath)
                (TungstenScene.init env false props.self_contained
                  (some props.filepath)).2 = 0 :=
              List.count_eq_zero.mpr (hinr props.filepath)
            have hc2 : List.count (Effect.rmtree props.filepath) e1 = 0 :=
              List.count_eq_zero.mpr (hnr props.filepath)
            have hc3 : List.count (Effect.rmtree props.filepath)
                [Effect.writeSceneFile s1.scenefile] = 0 := by
              simp [List.count_cons]
            omega
        | error err =>
            simp only [Prod.mk.injEq, Option.some.injEq] at h
            obtain ⟨hr, hs, hes⟩ := h
            subst hs
            refine ⟨fun hzt => by rw [hzt] at hz; exact (hz rfl).elim,
              fun _ => ⟨hclean, hdir, hdel, ?_⟩⟩
            rw [← hes, hdel, hdir]
            simp only [List.count_append, List.append_nil]
            have hc1 : List.count (Effect.rmtree props.filepath)
                (TungstenScene.init env false props.self_contained
                  (some props.filepath)).2 = 0 :=
              List.count_eq_zero.mpr (hinr props.filepath)
            have hc2 : List.count (Effect.rmtree props.filepath) e1 = 0 :=
              List.count_eq_zero.mpr (hnr props.filepath)
            omega

/-- The operator properties of the concrete directory-mode export. -/
def propsDirW : ExportProps :=
  { filepath := "/out", self_contained := false, zip := false,
    compress := false }

/-- C5 witness: the concrete directory-mode export to the existing `/out`
has a no-op teardown over the caller's directory. -/
theorem transient_dir_removed_iff_witness :
    TungstenScene.del
      (((W_OT_export.execute envW propsDirW sceneW).2.1).getD sW) = [] := by
  have h : W_OT_export.execute envW propsDirW sceneW =
      ((W_OT_export.execute envW propsDirW sceneW).1,
       some (((W_OT_export.execute envW propsDirW sceneW).2.1).getD sW),
       (W_OT_export.execute envW propsDirW sceneW).2.2) := by rfl
  exact ((transient_dir_removed_iff envW propsDirW sceneW _ _ _ h).2 rfl).2.2.1

/-! ### C8 — staged `add_all`: merges, world, camera, traversal -/

theorem add_object_primitives_append (env : Env) (o : HostObject)
    (s : TungstenScene) :
    ∃ t, (TungstenScene.add_object env o s).2.1.scene.primitives =
      s.scene.primitives ++ t := by
  unfold TungstenScene.add_object
  by_cases htype :
      o.type ∈ (["MESH", "CURVE", "SURFACE", "META", "FONT"] : List String)
  · rw [if_pos htype]
    rcases hslot : o.material_slots.head?.bind (fun slot => slot.material) with
      _ | m
    · exact ⟨_, rfl⟩
    · dsimp only
      have hp := (add_material_frame env m s).2.1
      rcases hmat : TungstenScene.add_material env m s with ⟨r, s2, e2⟩
      rw [hmat] at hp
      cases r with
      | ok obj =>
          refine ⟨[dictUpdate (objBaseRecord o) obj], ?_⟩
          show s2.scene.primitives ++ [dictUpdate (objBaseRecord o) obj] = _
          rw [hp]
      | error err =>
          refine ⟨[], ?_⟩
          show s2.scene.primitives = _
          rw [hp, List.append_nil]
  · rw [if_neg htype]
    exact ⟨[], (List.append_nil _).symm⟩

theorem add_objects_primitives_append (env : Env) (os : List HostObject)
    (s : TungstenScene) :
    ∃ t, (TungstenScene.add_objects env os s).2.1.scene.primitives =
      s.scene.primitives ++ t := by
  induction os generalizing s with
  | nil => exact ⟨[], (List.append_nil _).symm⟩
  | cons o os ih =>
      unfold TungstenScene.add_objects
      obtain ⟨t1, ht1⟩ := add_object_primitives_append env o s
      rcases hobj : TungstenScene.add_object env o s with ⟨r, s1, e1⟩
      rw [hobj] at ht1
      cases r with
      | ok u =>
          obtain ⟨t2, ht2⟩ := ih s1
          refine ⟨t1 ++ t2, ?_⟩
          show (TungstenScene.add_objects env os s1).2.1.scene.primitives = _
          rw [ht2, ht1, List.append_assoc]
      | error err => exact ⟨t1, ht1⟩

/-- C8: `add_all` runs its stages in order — renderer merge, integrator
merge, the world primitive exactly once when a world exists, camera
overwrite, then the object traversal — and the two merges are key-wise
dictionary updates in which converter output wins while keys the
converter does not supply keep their seeded values. -/
theorem add_all_staged (env : Env) (scene : HostScene) (s : TungstenScene) :
    (TungstenScene.add_all env scene s).2.1.scene.renderer =
      dictUpdate s.scene.renderer env.rendererData ∧
    (TungstenScene.add_all env scene s).2.1.scene.integrator =
      dictUpdate s.scene.integrator env.integratorData ∧
    ((env.rendererData.map Prod.fst).Nodup → ∀ k,
      getKey (TungstenScene.add_all env scene s).2.1.scene.renderer k =
        ((getKey env.rendererData k).orElse
          (fun _ => getKey s.scene.renderer k))) ∧
    (TungstenScene.add_all env scene s).2.1.scene.camera =
      (TungstenScene.add_camera env scene scene.camera s).1.scene.camera ∧
    (∃ t, (TungstenScene.add_all env scene s).2.1.scene.primitives =
      s.scene.primitives ++
        (if scene.world.isSome then [env.worldData] else []) ++ t) ∧
    (∃ tail, (TungstenScene.add_all env scene s).2.2 =
      [Effect.convRenderer, Effect.convIntegrator] ++
        (if scene.world.isSome then [Effect.convWorld] else []) ++
        [Effect.convCamera] ++ tail ∧
      (∀ e ∈ tail, (∃ n, e = Effect.convMaterial n) ∨
        (∃ f, e = Effect.writeMesh f))) ∧
    (TungstenScene.add_all env scene s).2.2.count Effect.convWorld =
      (if scene.world.isSome then 1 else 0) := by
  have hrend : (TungstenScene.add_all env scene s).2.1.scene.renderer =
      dictUpdate s.scene.renderer env.rendererData := by
    unfold TungstenScene.add_all
    cases hw : scene.world with
    | none =>
        dsimp only
        exact (add_objects_frame env scene.objects _).2.2.1
    | some u =>
        dsimp only
        exact (add_objects_frame env scene.objects _).2.2.1
  have hint : (TungstenScene.add_all env scene s).2.1.scene.integrator =
      dictUpdate s.scene.integrator env.integratorData := by
    unfold TungstenScene.add_all
    cases hw : scene.world with
    | none =>
        dsimp only
        exact (add_objects_frame env scene.objects _).2.2.2.1
    | some u =>
        dsimp only
        exact (add_objects_frame env scene.objects _).2.2.2.1
  refine ⟨hrend, hint, ?_, ?_, ?_, add_all_effects_shape env scene s, ?_⟩
  · intro hnd k
    rw [hrend, getKey_dictUpdate _ _ _ hnd]
  · unfold TungstenScene.add_all
    cases hw : scene.world with
    | none =>
        dsimp only
        exact (add_objects_frame env scene.objects _).2.1
    | some u =>
        dsimp only
        exact (add_objects_frame env scene.objects _).2.1
  · unfold TungstenScene.add_all
    cases hw : scene.world with
    | none =>
        dsimp only
        simp only [Option.isSome_none, Bool.false_eq_true, if_false,
          List.append_nil]
        exact add_objects_primitives_append env scene.objects _
    | some u =>
        dsimp only
        simp only [Option.isSome_some, if_true]
        exact add_objects_primitives_append env scene.objects _
  · obtain ⟨tail, ht, hs⟩ := add_all_effects_shape env scene s
    rw [ht]
    have htz : tail.count Effect.convWorld = 0 := by
      rw [List.count_eq_zero]
      intro hmem
      rcases hs _ hmem with ⟨n, hn⟩ | ⟨f, hf⟩
      · exact Effect.noConfusion hn
      · exact Effect.noConfusion hf
    cases hw : scene.world with
    | none =>
        simp [List.count_append, List.count_cons, htz]
    | some u =>
        simp [List.count_append, List.count_cons, htz]

/-- C8 witness: on the fresh session the converter-supplied
`output_file` wins over the seeded default, while the untouched
`checkpoint_interval` keeps its seeded value, and the single world of the
concrete scene is converted exactly once. -/
theorem add_all_staged_witness :
    getKey (TungstenScene.add_all envW sceneW sW).2.1.scene.renderer
        "output_file" = some (vStr "out.png") ∧
    getKey (TungstenScene.add_all envW sceneW sW).2.1.scene.renderer
        "checkpoint_interval" = some (vInt 0) ∧
    (TungstenScene.add_all envW sceneW sW).2.2.count Effect.convWorld = 1 := by
  have h := add_all_staged envW sceneW sW
  have hmerge := h.2.2.1 (by decide)
  refine ⟨?_, ?_, ?_⟩
  · rw [hmerge "output_file"]
    rfl
  · rw [hmerge "checkpoint_interval"]
    rfl
  · have hc := h.2.2.2.2.2.2
    rw [hc]
    rfl

end Carbide
